import Mathlib

/-!
Verification of the user-identity backend (registration validation, password
hashing and verification, login, authentication middleware, profile update)
against its Go sources.

Modelling conventions:
- Go strings reaching the functions below arrive from JSON decoding and are
  valid UTF-8; we model them as Lean `String` (a sequence of Unicode scalar
  values) and model Go's byte-oriented `len(s)` as the length of the UTF-8
  encoding (`goLen`).
- Go `int` is modelled as `Int`, `time.Time` as an abstract integer instant.
- Fallible Go functions returning `error` are modelled with `Except String`,
  carrying the source's error message.
-/

namespace Wishlist

/-- UTF-8 encoding of a single Unicode scalar value, exactly as Go produces it
when converting a `string` holding this rune to `[]byte`. -/
def charBytes (c : Char) : List Nat :=
  let n := c.toNat
  if n < 0x80 then [n]
  else if n < 0x800 then [0xC0 + n / 64, 0x80 + n % 64]
  else if n < 0x10000 then [0xE0 + n / 4096, 0x80 + n / 64 % 64, 0x80 + n % 64]
  else [0xF0 + n / 262144, 0x80 + n / 4096 % 64, 0x80 + n / 64 % 64, 0x80 + n % 64]

/-- UTF-8 byte sequence of a list of runes. -/
def utf8Bytes : List Char → List Nat
  | [] => []
  | c :: cs => charBytes c ++ utf8Bytes cs

/-- Go's `[]byte(s)` for a valid-UTF-8 string. -/
def strBytes (s : String) : List Nat := utf8Bytes s.data

/-- Go's `len(s)`: the number of bytes in the UTF-8 encoding of `s`. -/
def goLen (s : String) : Nat := (strBytes s).length

/-- Membership in the regexp character range `[A-Z]`. -/
def isUpperAscii (c : Char) : Bool := 'A' ≤ c && c ≤ 'Z'

/-- Membership in the regexp character range `[a-z]`. -/
def isLowerAscii (c : Char) : Bool := 'a' ≤ c && c ≤ 'z'

/-- Membership in the regexp character range `[0-9]`. -/
def isDigitAscii (c : Char) : Bool := '0' ≤ c && c ≤ '9'

/-- Membership in the regexp character class `[a-zA-Z]`. -/
def isAlphaAscii (c : Char) : Bool := isUpperAscii c || isLowerAscii c

/-- Membership in the regexp character class `[a-zA-Z0-9_-]` of `usernameRegex`. -/
def usernameChar (c : Char) : Bool :=
  isAlphaAscii c || isDigitAscii c || c = '_' || c = '-'

/-- Membership in the regexp character class `[a-zA-Z0-9._%+-]` (the local part
of `emailRegex`). -/
def emailLocalChar (c : Char) : Bool :=
  isAlphaAscii c || isDigitAscii c || c = '.' || c = '_' || c = '%' || c = '+' || c = '-'

/-- Membership in the regexp character class `[a-zA-Z0-9.-]` (the domain part
of `emailRegex`). -/
def emailDomChar (c : Char) : Bool :=
  isAlphaAscii c || isDigitAscii c || c = '.' || c = '-'

/-- Go's `strings.ToLower`, restricted to the ASCII case mapping.  Unicode
simple lowercasing differs from ASCII lowercasing only on non-ASCII runes,
and the only non-ASCII runes whose simple lowercase is an ASCII letter are
U+212A (to `k`) and U+0130 (to `i`); neither `k` nor `i` occurs in `"male"`
or `"female"`, so the restriction does not change the outcome of any
comparison performed by `ParseGender` below. -/
def stringsToLower (s : String) : String :=
  String.mk (s.data.map (fun c => if isUpperAscii c then Char.ofNat (c.toNat + 32) else c))

/-- Gender is a string-typed enum in the source (`type Gender string`). -/
abbrev Gender := String

/-- Constant `GenderUnknown Gender = "unknown"`. -/
def GenderUnknown : Gender := "unknown"

/-- Constant `GenderMale Gender = "male"`. -/
def GenderMale : Gender := "male"

/-- Constant `GenderFemale Gender = "female"`. -/
def GenderFemale : Gender := "female"

/-- Translation of `ParseGender` (model/types.go): a `switch` on
`strings.ToLower(gender)` with cases `"male"` and `"female"` and a default
of `GenderUnknown`. -/
def ParseGender (gender : String) : Gender :=
  if stringsToLower gender = "male" then GenderMale
  else if stringsToLower gender = "female" then GenderFemale
  else GenderUnknown

/-- Translation of method `Gender.IsValid` (model/types.go). -/
def Gender.IsValid (g : Gender) : Bool :=
  g = GenderMale || g = GenderFemale || g = GenderUnknown

/-- Validation constants from model/types.go. -/
def UsernameMinLength : Nat := 3

/-- Validation constant `UsernameMaxLength` from model/types.go. -/
def UsernameMaxLength : Nat := 50

/-- Validation constant `EmailMaxLength` from model/types.go. -/
def EmailMaxLength : Nat := 100

/-- Validation constant `PasswordMinLength` from model/types.go. -/
def PasswordMinLength : Nat := 8

/-- Splits a list at the first element satisfying `p`: returns the segment
before that element and the segment after it, or `none` when no element
satisfies `p`. -/
def breakAt (p : Char → Bool) : List Char → Option (List Char × List Char)
  | [] => none
  | c :: rest =>
    if p c then some ([], rest)
    else
      match breakAt p rest with
      | none => none
      | some (a, b) => some (c :: a, b)

/-- Full-match semantics of the anchored Go regexp `usernameRegex`,
`^[a-zA-Z0-9_-]+$` : one or more characters of the class.
(`MatchString` on a `^...$`-anchored pattern asks whether the whole string
is in the pattern's language.) -/
def usernameRegexMatch (s : String) : Bool :=
  !s.data.isEmpty && s.data.all usernameChar

/-- Full-match semantics of the anchored Go regexp `emailRegex`,
`^[a-zA-Z0-9._%+-]+@[a-zA-Z0-9.-]+\.[a-zA-Z]{2,}$`.

A member of this language contains exactly one `@` (no character class of
the pattern admits `@`), so the local part ends at the first `@`.  The
final `[a-zA-Z]{2,}` block contains no dot, hence in any decomposition it
must consist of everything after the *last* dot of the remainder, with the
`\.` consuming that dot.  The language is therefore decided by splitting at
the first `@` and then at the last dot of what follows. -/
def emailRegexMatch (s : String) : Bool :=
  match breakAt (fun c => c = '@') s.data with
  | none => false
  | some (lpart, rest) =>
    !lpart.isEmpty && lpart.all emailLocalChar &&
      (match breakAt (fun c => c = '.') rest.reverse with
       | none => false
       | some (revTld, revDom) =>
         decide (2 ≤ revTld.length) && revTld.all isAlphaAscii &&
           !revDom.isEmpty && revDom.all emailDomChar)

/-- Translation of `validateUsername` (model/types.go). -/
def validateUsername (username : String) : Except String Unit :=
  if goLen username < UsernameMinLength then .error "username is too short"
  else if goLen username > UsernameMaxLength then .error "username is too long"
  else if !usernameRegexMatch username then
    .error "username can only contain alphanumeric characters, underscores, and hyphens"
  else .ok ()

/-- Translation of `validateEmail` (model/types.go). -/
def validateEmail (email : String) : Except String Unit :=
  if goLen email > EmailMaxLength then .error "email is too long"
  else if !emailRegexMatch email then .error "invalid email format"
  else .ok ()

/-- Translation of `validateGender` (model/types.go): the empty string is
accepted; otherwise the input is parsed with `ParseGender` and rejected when
the parse result fails `IsValid`. -/
def validateGender (gender : String) : Except String Unit :=
  if gender = "" then .ok ()
  else if !(ParseGender gender).IsValid then
    .error "gender must be one of: male, female, unknown"
  else .ok ()

/-- Translation of `validatePassword` (model/types.go).  The unanchored
single-character-class regexps `[A-Z]`, `[a-z]`, `[0-9]` match a string
exactly when some rune of the string lies in the class. -/
def validatePassword (password : String) : Except String Unit :=
  if goLen password < PasswordMinLength then .error "password is too short"
  else
    let hasUpper := password.data.any isUpperAscii
    let hasLower := password.data.any isLowerAscii
    let hasNumber := password.data.any isDigitAscii
    if !hasUpper || !hasLower || !hasNumber then
      .error "password must contain at least one uppercase letter, one lowercase letter, and one number"
    else .ok ()

/-- Translation of `UserCreateRequest` (model/types.go); the `binding` struct
tags belong to the transport layer, not to `Validate`. -/
structure UserCreateRequest where
  Username : String
  Email : String
  Gender : String
  Password : String
deriving DecidableEq, Repr

/-- Translation of `UserUpdateRequest` (model/types.go): all fields are
pointers, `none` modelling a nil pointer (field absent from the JSON body). -/
structure UserUpdateRequest where
  Username : Option String
  Email : Option String
  Gender : Option String
  Password : Option String
deriving DecidableEq, Repr

/-- Translation of method `(*UserCreateRequest).Validate` (model/types.go),
wrapping each field failure with the `fmt.Errorf` prefix of the source. -/
def UserCreateRequest.Validate (ucr : UserCreateRequest) : Except String Unit :=
  match validateUsername ucr.Username with
  | .error e => .error ("username validation failed: " ++ e)
  | .ok _ =>
  match validateEmail ucr.Email with
  | .error e => .error ("email validation failed: " ++ e)
  | .ok _ =>
  match validateGender ucr.Gender with
  | .error e => .error ("gender validation failed: " ++ e)
  | .ok _ =>
  match validatePassword ucr.Password with
  | .error e => .error ("password validation failed: " ++ e)
  | .ok _ => .ok ()

/-- Translation of method `(*UserUpdateRequest).Validate` (model/types.go):
each check runs only when the corresponding pointer is non-nil. -/
def UserUpdateRequest.Validate (uur : UserUpdateRequest) : Except String Unit :=
  match ((match uur.Username with
         | none => .ok ()
         | some u =>
           match validateUsername u with
           | .error e => .error ("username validation failed: " ++ e)
           | .ok _ => .ok ()) : Except String Unit) with
  | .error (e : String) => .error e
  | .ok (_ : Unit) =>
  match ((match uur.Email with
         | none => .ok ()
         | some m =>
           match validateEmail m with
           | .error e => .error ("email validation failed: " ++ e)
           | .ok _ => .ok ()) : Except String Unit) with
  | .error (e : String) => .error e
  | .ok (_ : Unit) =>
  match ((match uur.Gender with
         | none => .ok ()
         | some g =>
           match validateGender g with
           | .error e => .error ("gender validation failed: " ++ e)
           | .ok _ => .ok ()) : Except String Unit) with
  | .error (e : String) => .error e
  | .ok (_ : Unit) =>
  match uur.Password with
  | none => .ok ()
  | some p =>
    match validatePassword p with
    | .error e => .error ("password validation failed: " ++ e)
    | .ok _ => .ok ()

/-- Model of a bcrypt digest as produced by
`golang.org/x/crypto/bcrypt.GenerateFromPassword`.  Go serializes the digest
into the string `$2a$<cost>$<base64 salt><base64 ctext>`; since that
serialization is injective and no code in the repository inspects the
characters of a hash, we model the digest string by its parsed content.  The
bcrypt core (EksBlowfish) is modelled as a perfect, collision-free function
of its inputs, so `key` records the key material the core actually consumes
— see `bcryptKeyMaterial`. -/
structure BcryptDigest where
  cost : Nat
  salt : List Nat
  key : List Nat
deriving DecidableEq, Repr

/-- Cost constant `bcrypt.DefaultCost`. -/
def bcryptDefaultCost : Nat := 10

/-- Key material the bcrypt core consumes for a password with byte slice
`b`.  The library appends a terminating NUL (`ckey := append(key, 0)`) and
the Blowfish key schedule (`blowfish.ExpandKey` and the salted setup) XORs
exactly 18 × 4 = 72 bytes of that key into the P-array, reading it
*cyclically* from position 0 (`getNextWord` wraps at `len(key)`).  The
digest therefore depends on the password only through the 72-byte cyclic
extension of `b ++ [0]`.  In particular distinct passwords can share key
material: `"a\x00a"` against `"a"`, or a 73-byte run of `a` against the
72-byte one. -/
def bcryptKeyMaterial (b : List Nat) : List Nat :=
  (List.range 72).map fun i => (b ++ [0]).getD (i % (b.length + 1)) 0

/-- Translation of `HashPassword` (auth/password.go), which calls
`bcrypt.GenerateFromPassword([]byte(password), bcrypt.DefaultCost)`.  The
library draws a fresh 16-byte salt from the entropy source; the salt is an
explicit argument here.  `GenerateFromPassword` rejects passwords longer
than 72 bytes (the longest password bcrypt operates on); on that failure
`HashPassword` wraps the library error with the source's prefix.  Otherwise
the digest records the cost, the salt and the key material of
`bcryptKeyMaterial`. -/
def HashPassword (salt : List Nat) (password : String) : Except String BcryptDigest :=
  if (strBytes password).length > 72 then
    .error "failed to hash password: bcrypt: password length exceeds 72 bytes"
  else .ok ⟨bcryptDefaultCost, salt, bcryptKeyMaterial (strBytes password)⟩

/-- Translation of `CheckPassword` (auth/password.go), which calls
`bcrypt.CompareHashAndPassword([]byte(hash), []byte(password))`.  The
library re-runs the bcrypt core over the candidate password with the cost
and salt parsed from the digest and compares the results; with the core
modelled as collision-free, the comparison succeeds exactly when the
candidate's key material (`bcryptKeyMaterial`, the NUL-terminated password
cycled to 72 bytes — `CompareHashAndPassword` imposes no length limit)
equals the digest's.  On mismatch the source returns the generic error
`"invalid password"`. -/
def CheckPassword (password : String) (hash : BcryptDigest) : Except String Unit :=
  if bcryptKeyMaterial (strBytes password) = hash.key then .ok ()
  else .error "invalid password"

/-- Translation of struct `User` (model/types.go).  `PasswordHash` is a
string in Go holding a serialized bcrypt digest; see `BcryptDigest`. -/
structure User where
  ID : Int
  Username : String
  Email : String
  Gender : Gender
  PasswordHash : BcryptDigest
  CreatedAt : Int
  UpdatedAt : Int
deriving DecidableEq, Repr

/-- Translation of struct `UserResponse` (model/types.go), the safe response
structure for user data. -/
structure UserResponse where
  ID : Int
  Username : String
  Email : String
  Gender : Gender
  CreatedAt : Int
  UpdatedAt : Int
deriving DecidableEq, Repr

/-- Translation of method `(*User).ToResponse` (model/types.go). -/
def User.ToResponse (u : User) : UserResponse :=
  { ID := u.ID
    Username := u.Username
    Email := u.Email
    Gender := u.Gender
    CreatedAt := u.CreatedAt
    UpdatedAt := u.UpdatedAt }

/-- JSON values, for modelling the bodies this service serializes.  Numbers
and timestamps are carried as `Int`; nested objects cover `gin.H` bodies. -/
inductive Jval where
  | str : String → Jval
  | num : Int → Jval
  | obj : List (String × Jval) → Jval

/-- JSON serialization of `User` as dictated by its struct tags
(model/types.go): every field carries a `json:"..."` name except
`PasswordHash`, whose tag is `json:"-"`, excluding it from the output. -/
def marshalUser (u : User) : Jval :=
  .obj [("id", .num u.ID),
        ("username", .str u.Username),
        ("email", .str u.Email),
        ("gender", .str u.Gender),
        ("created_at", .num u.CreatedAt),
        ("updated_at", .num u.UpdatedAt)]

/-- JSON serialization of `UserResponse` as dictated by its struct tags
(model/types.go). -/
def marshalUserResponse (r : UserResponse) : Jval :=
  .obj [("id", .num r.ID),
        ("username", .str r.Username),
        ("email", .str r.Email),
        ("gender", .str r.Gender),
        ("created_at", .num r.CreatedAt),
        ("updated_at", .num r.UpdatedAt)]

/-- HTTP response: a status code and a JSON body. -/
structure HttpResp where
  status : Nat
  body : Jval

/-- Translation of struct `UserLoginRequest` (module/account/action). -/
structure UserLoginRequest where
  Email : String
  Password : String
deriving DecidableEq, Repr

/-- Collaborators of `ActionLogin`: the user repository's `GetByEmail`
(which reports "no such row" as an error carrying a message, exactly as
`repository.GetByEmail` does), and the JWT manager's `GenerateToken`
together with the configured expiration (hours).  Token generation lives
outside the modelled core; it is an opaque function here. -/
structure LoginDeps where
  getByEmail : String → Except String User
  generateToken : Int → String → String → Except String String
  jwtExpiration : Int

/-- Response `gin.H{"error": "Invalid email or password"}` with status 401,
produced by both failure branches of `ActionLogin`. -/
def invalidCredentialResp : HttpResp :=
  ⟨401, .obj [("error", .str "Invalid email or password")]⟩

/-- Translation of `ActionLogin` (module/account/action): the handler body
after a successful JSON bind.  The salt argument feeds nothing here —
login never hashes — but the lookup result's stored digest is compared via
`CheckPassword`. -/
def ActionLogin (d : LoginDeps) (req : UserLoginRequest) : HttpResp :=
  match d.getByEmail req.Email with
  | .error _ => invalidCredentialResp
  | .ok user =>
    match CheckPassword req.Password user.PasswordHash with
    | .error _ => invalidCredentialResp
    | .ok _ =>
      match d.generateToken user.ID user.Username user.Email with
      | .error e =>
        ⟨500, .obj [("error", .str "Failed to generate authentication token"),
                    ("details", .str e)]⟩
      | .ok token =>
        ⟨200, .obj [("message", .str "Login successful"),
                    ("data", .obj [("token", .str token),
                                   ("user", marshalUserResponse user.ToResponse),
                                   ("expires_in", .num (d.jwtExpiration * 3600)),
                                   ("token_type", .str "Bearer")])]⟩

/-- Claims carried by a verified session token, as consumed by the
middleware (`claims.UserID`, `claims.Username`, `claims.Email`). -/
structure JwtClaims where
  UserID : Int
  Username : String
  Email : String
deriving DecidableEq, Repr

/-- Outcome of the authentication middleware: either the request is aborted
with an unauthorized response and no downstream handler runs, or control
proceeds with `user_id`, `username`, `email` set on the request context. -/
inductive AuthOutcome where
  | abort : HttpResp → AuthOutcome
  | proceed : Int → String → String → AuthOutcome

/-- Go's `strings.SplitN(s, " ", 2)`: at most two pieces, split around the
first space; a string without a space yields the one-element list `[s]`. -/
def splitN2Space (s : String) : List String :=
  match breakAt (fun c => c = ' ') s.data with
  | none => [s]
  | some (a, b) => [String.mk a, String.mk b]

/-- Translation of `AuthMiddleware` (auth middleware source).  `c.GetHeader`
returns the empty string when the request has no Authorization header, so
the middleware's input is that string; `validateToken` is the JWT manager's
`ValidateToken`, kept opaque (the middleware only branches on whether it
fails). -/
def AuthMiddleware (validateToken : String → Except String JwtClaims)
    (authHeader : String) : AuthOutcome :=
  if authHeader = "" then
    .abort ⟨401, .obj [("error", .str "Authorization header is required")]⟩
  else
    let parts := splitN2Space authHeader
    if parts.length ≠ 2 || parts.headD "" ≠ "Bearer" then
      .abort ⟨401, .obj [("error", .str "Invalid authorization header format")]⟩
    else
      match validateToken (parts.getD 1 "") with
      | .error _ => .abort ⟨401, .obj [("error", .str "Invalid or expired token")]⟩
      | .ok claims => .proceed claims.UserID claims.Username claims.Email

/-- Collaborators and ambient inputs of `ActionUpdateProfile`: repository
lookups (errors carry the repository's message), existence checks, the
entropy for a fresh bcrypt salt, and the current time for `BeforeUpdate`. -/
structure UpdateDeps where
  getByID : Int → Except String User
  existsByUsername : String → Bool
  existsByEmail : String → Bool
  salt : List Nat
  now : Int

/-- Outcome of `ActionUpdateProfile`: an error response, or the updated
`User` value handed to `userRepo.Update` (persistence itself is the storage
collaborator's concern). -/
inductive UpdateOutcome where
  | err : HttpResp → UpdateOutcome
  | save : User → UpdateOutcome

/-- Outcome sequencing inside `ActionUpdateProfile`: an error response makes
the handler return immediately (Go's early `return`), otherwise the next
block runs on the user updated so far. -/
def UpdateOutcome.andThen (o : UpdateOutcome) (f : User → UpdateOutcome) : UpdateOutcome :=
  match o with
  | .err r => .err r
  | .save usr => f usr

/-- Username block of `ActionUpdateProfile`: when the request carries a
username different from the stored one, a conflict check runs and the field
is replaced. -/
def updateUsernameStep (d : UpdateDeps) (req : UserUpdateRequest) (user : User) :
    UpdateOutcome :=
  match req.Username with
  | some un =>
    if un ≠ user.Username then
      if d.existsByUsername un then
        .err ⟨409, .obj [("error", .str "Username already exists")]⟩
      else .save { user with Username := un }
    else .save user
  | none => .save user

/-- Email block of `ActionUpdateProfile`, mirroring the username block. -/
def updateEmailStep (d : UpdateDeps) (req : UserUpdateRequest) (user : User) :
    UpdateOutcome :=
  match req.Email with
  | some em =>
    if em ≠ user.Email then
      if d.existsByEmail em then
        .err ⟨409, .obj [("error", .str "Email already exists")]⟩
      else .save { user with Email := em }
    else .save user
  | none => .save user

/-- Gender assignment of `ActionUpdateProfile`: a present gender is
re-parsed and stored, an absent one leaves the user untouched. -/
def updateGenderStep (req : UserUpdateRequest) (user : User) : User :=
  match req.Gender with
  | some g => { user with Gender := ParseGender g }
  | none => user

/-- Password block of `ActionUpdateProfile`: a present password is
re-hashed (failure aborts with a 500 response) and the stored digest is
replaced wholesale. -/
def updatePasswordStep (d : UpdateDeps) (req : UserUpdateRequest) (user : User) :
    UpdateOutcome :=
  match req.Password with
  | some pw =>
    match HashPassword d.salt pw with
    | .error e =>
      .err ⟨500, .obj [("error", .str "Failed to hash password"), ("details", .str e)]⟩
    | .ok h => .save { user with PasswordHash := h }
  | none => .save user

/-- Translation of `ActionUpdateProfile` (module/account/action/user.go):
the handler body after a successful JSON bind.  `auth` is the result of
`auth.GetUserID(ctx)` (`none` when the context carries no user id).  The
source's sequential blocks with early returns appear as the step functions
above chained with `andThen`; `BeforeUpdate` then stamps `UpdatedAt` with
the current time before the user is handed to `userRepo.Update`. -/
def ActionUpdateProfile (d : UpdateDeps) (auth : Option Int)
    (req : UserUpdateRequest) : UpdateOutcome :=
  match auth with
  | none => .err ⟨401, .obj [("error", .str "User not authenticated")]⟩
  | some userID =>
    match req.Validate with
    | .error e =>
      .err ⟨400, .obj [("error", .str "Validation failed"), ("details", .str e)]⟩
    | .ok _ =>
      match d.getByID userID with
      | .error e =>
        .err ⟨404, .obj [("error", .str "User not found"), ("details", .str e)]⟩
      | .ok user0 =>
        (updateUsernameStep d req user0).andThen fun user1 =>
          (updateEmailStep d req user1).andThen fun user2 =>
            (updatePasswordStep d req (updateGenderStep req user2)).andThen fun user3 =>
              .save { user3 with UpdatedAt := d.now }

theorem char_toNat_inj {a b : Char} (h : a.toNat = b.toNat) : a = b := by
  have h2 : Char.ofNat a.toNat = Char.ofNat b.toNat := congrArg _ h
  rwa [Char.ofNat_toNat, Char.ofNat_toNat] at h2


theorem charBytes_ascii {c : Char} (h : c.toNat < 0x80) : charBytes c = [c.toNat] := by
  simp [charBytes, h]


theorem charBytes_length_pos (c : Char) : 1 ≤ (charBytes c).length := by
  simp only [charBytes]
  split
  · simp
  · split
    · simp
    · split <;> simp


/-- Explicit form of `charBytes` for a two-byte scalar. -/
theorem charBytes_eq2 {c : Char} (h1 : ¬c.toNat < 0x80) (h2 : c.toNat < 0x800) :
    charBytes c = [0xC0 + c.toNat / 64, 0x80 + c.toNat % 64] := by
  simp [charBytes, h1, h2]

/-- Explicit form of `charBytes` for a three-byte scalar. -/
theorem charBytes_eq3 {c : Char} (h1 : ¬c.toNat < 0x80) (h2 : ¬c.toNat < 0x800)
    (h3 : c.toNat < 0x10000) :
    charBytes c = [0xE0 + c.toNat / 4096, 0x80 + c.toNat / 64 % 64, 0x80 + c.toNat % 64] := by
  simp [charBytes, h1, h2, h3]

/-- Explicit form of `charBytes` for a four-byte scalar. -/
theorem charBytes_eq4 {c : Char} (h1 : ¬c.toNat < 0x80) (h2 : ¬c.toNat < 0x800)
    (h3 : ¬c.toNat < 0x10000) :
    charBytes c = [0xF0 + c.toNat / 262144, 0x80 + c.toNat / 4096 % 64,
      0x80 + c.toNat / 64 % 64, 0x80 + c.toNat % 64] := by
  simp [charBytes, h1, h2, h3]

theorem charBytes_append_inj {a b : Char} {xs ys : List Nat}
    (h : charBytes a ++ xs = charBytes b ++ ys) : a = b ∧ xs = ys := by
  by_cases a1 : a.toNat < 0x80
  · rw [charBytes_ascii a1] at h
    by_cases b1 : b.toNat < 0x80
    · rw [charBytes_ascii b1] at h
      simp only [List.cons_append, List.nil_append, List.cons.injEq] at h
      obtain ⟨e1, etail⟩ := h
      exact ⟨char_toNat_inj (by omega), etail⟩
    · by_cases b2 : b.toNat < 0x800
      · rw [charBytes_eq2 b1 b2] at h
        simp only [List.cons_append, List.nil_append, List.cons.injEq] at h
        obtain ⟨e1, etail⟩ := h
        exact absurd e1 (by omega)
      · by_cases b3 : b.toNat < 0x10000
        · rw [charBytes_eq3 b1 b2 b3] at h
          simp only [List.cons_append, List.nil_append, List.cons.injEq] at h
          obtain ⟨e1, etail⟩ := h
          exact absurd e1 (by omega)
        · rw [charBytes_eq4 b1 b2 b3] at h
          simp only [List.cons_append, List.nil_append, List.cons.injEq] at h
          obtain ⟨e1, etail⟩ := h
          exact absurd e1 (by omega)
  · by_cases a2 : a.toNat < 0x800
    · rw [charBytes_eq2 a1 a2] at h
      by_cases b1 : b.toNat < 0x80
      · rw [charBytes_ascii b1] at h
        simp only [List.cons_append, List.nil_append, List.cons.injEq] at h
        obtain ⟨e1, etail⟩ := h
        exact absurd e1 (by omega)
      · by_cases b2 : b.toNat < 0x800
        · rw [charBytes_eq2 b1 b2] at h
          simp only [List.cons_append, List.nil_append, List.cons.injEq] at h
          obtain ⟨e1, e2, etail⟩ := h
          exact ⟨char_toNat_inj (by omega), etail⟩
        · by_cases b3 : b.toNat < 0x10000
          · rw [charBytes_eq3 b1 b2 b3] at h
            simp only [List.cons_append, List.nil_append, List.cons.injEq] at h
            obtain ⟨e1, e2, etail⟩ := h
            exact absurd e1 (by omega)
          · rw [charBytes_eq4 b1 b2 b3] at h
            simp only [List.cons_append, List.nil_append, List.cons.injEq] at h
            obtain ⟨e1, e2, etail⟩ := h
            exact absurd e1 (by omega)
    · by_cases a3 : a.toNat < 0x10000
      · rw [charBytes_eq3 a1 a2 a3] at h
        by_cases b1 : b.toNat < 0x80
        · rw [charBytes_ascii b1] at h
          simp only [List.cons_append, List.nil_append, List.cons.injEq] at h
          obtain ⟨e1, etail⟩ := h
          exact absurd e1 (by omega)
        · by_cases b2 : b.toNat < 0x800
          · rw [charBytes_eq2 b1 b2] at h
            simp only [List.cons_append, List.nil_append, List.cons.injEq] at h
            obtain ⟨e1, e2, etail⟩ := h
            exact absurd e1 (by omega)
          · by_cases b3 : b.toNat < 0x10000
            · rw [charBytes_eq3 b1 b2 b3] at h
              simp only [List.cons_append, List.nil_append, List.cons.injEq] at h
              obtain ⟨e1, e2, e3, etail⟩ := h
              exact ⟨char_toNat_inj (by omega), etail⟩
            · rw [charBytes_eq4 b1 b2 b3] at h
              simp only [List.cons_append, List.nil_append, List.cons.injEq] at h
              obtain ⟨e1, e2, e3, etail⟩ := h
              exact absurd e1 (by omega)
      · rw [charBytes_eq4 a1 a2 a3] at h
        by_cases b1 : b.toNat < 0x80
        · rw [charBytes_ascii b1] at h
          simp only [List.cons_append, List.nil_append, List.cons.injEq] at h
          obtain ⟨e1, etail⟩ := h
          exact absurd e1 (by omega)
        · by_cases b2 : b.toNat < 0x800
          · rw [charBytes_eq2 b1 b2] at h
            simp only [List.cons_append, List.nil_append, List.cons.injEq] at h
            obtain ⟨e1, e2, etail⟩ := h
            exact absurd e1 (by omega)
          · by_cases b3 : b.toNat < 0x10000
            · rw [charBytes_eq3 b1 b2 b3] at h
              simp only [List.cons_append, List.nil_append, List.cons.injEq] at h
              obtain ⟨e1, e2, e3, etail⟩ := h
              exact absurd e1 (by omega)
            · rw [charBytes_eq4 b1 b2 b3] at h
              simp only [List.cons_append, List.nil_append, List.cons.injEq] at h
              obtain ⟨e1, e2, e3, e4, etail⟩ := h
              exact ⟨char_toNat_inj (by omega), etail⟩

/-- UTF-8 encoding of rune lists is injective, so two distinct Go strings
have distinct `[]byte` slices. -/
theorem utf8Bytes_inj {l l' : List Char} (h : utf8Bytes l = utf8Bytes l') : l = l' := by
  induction l generalizing l' with
  | nil =>
    cases l' with
    | nil => rfl
    | cons c cs =>
      exfalso
      have hlen := congrArg List.length h
      have hpos := charBytes_length_pos c
      simp only [utf8Bytes, List.length_append, List.length_nil] at hlen
      omega
  | cons c cs ih =>
    cases l' with
    | nil =>
      exfalso
      have hlen := congrArg List.length h
      have hpos := charBytes_length_pos c
      simp only [utf8Bytes, List.length_append, List.length_nil] at hlen
      omega
    | cons d ds =>
      have h2 : charBytes c ++ utf8Bytes cs = charBytes d ++ utf8Bytes ds := h
      obtain ⟨hcd, htail⟩ := charBytes_append_inj h2
      rw [hcd, ih htail]

theorem strBytes_inj {p q : String} (h : strBytes p = strBytes q) : p = q := by
  have hdata : p.data = q.data := utf8Bytes_inj h
  cases p
  cases q
  exact congrArg String.mk hdata

theorem bcryptKeyMaterial_getD (b : List Nat) (i : Nat) (h : i < 72) :
    (bcryptKeyMaterial b).getD i 0 = (b ++ [0]).getD (i % (b.length + 1)) 0 := by
  unfold bcryptKeyMaterial
  rw [List.getD_eq_getElem?_getD]
  simp [List.getElem?_map, List.getElem?_range, h]

theorem bcryptKeyMaterial_getD_lt {b : List Nat} (hb : b.length ≤ 72) {i : Nat}
    (hi : i < b.length) : (bcryptKeyMaterial b).getD i 0 = b.getD i 0 := by
  rw [bcryptKeyMaterial_getD b i (by omega)]
  have hmod : i % (b.length + 1) = i := Nat.mod_eq_of_lt (by omega)
  rw [hmod]
  exact List.getD_append b [0] 0 i hi

theorem bcryptKeyMaterial_getD_len {b : List Nat} (hb : b.length ≤ 71) :
    (bcryptKeyMaterial b).getD b.length 0 = 0 := by
  rw [bcryptKeyMaterial_getD b b.length (by omega)]
  have hmod : b.length % (b.length + 1) = b.length := Nat.mod_eq_of_lt (by omega)
  rw [hmod]
  rw [List.getD_append_right b [0] 0 b.length (le_refl _)]
  simp

/-- The bcrypt key schedule distinguishes NUL-free passwords of at most 72
bytes: for such byte slices the 72-byte cyclic extension of the
NUL-terminated key determines the slice (its length is recovered from the
position of the first NUL, or from the absence of one for 72-byte slices). -/
theorem bcryptKeyMaterial_inj {b1 b2 : List Nat} (h1 : b1.length ≤ 72)
    (h2 : b2.length ≤ 72) (hz1 : ∀ x ∈ b1, x ≠ 0) (hz2 : ∀ x ∈ b2, x ≠ 0)
    (heq : bcryptKeyMaterial b1 = bcryptKeyMaterial b2) : b1 = b2 := by
  have hgd : ∀ i, (bcryptKeyMaterial b1).getD i 0 = (bcryptKeyMaterial b2).getD i 0 := by
    intro i
    rw [heq]
  have hlen : b1.length = b2.length := by
    by_contra hne
    rcases Nat.lt_or_ge b1.length b2.length with hlt | hge
    · have e1 : (bcryptKeyMaterial b1).getD b1.length 0 = 0 :=
        bcryptKeyMaterial_getD_len (by omega)
      have e2 : (bcryptKeyMaterial b2).getD b1.length 0 = b2.getD b1.length 0 :=
        bcryptKeyMaterial_getD_lt h2 hlt
      have hmem : b2.getD b1.length 0 ∈ b2 := by
        rw [List.getD_eq_getElem b2 0 hlt]
        exact List.getElem_mem hlt
      rw [hgd b1.length, e2] at e1
      exact hz2 _ hmem e1
    · have hlt : b2.length < b1.length := by omega
      have e1 : (bcryptKeyMaterial b2).getD b2.length 0 = 0 :=
        bcryptKeyMaterial_getD_len (by omega)
      have e2 : (bcryptKeyMaterial b1).getD b2.length 0 = b1.getD b2.length 0 :=
        bcryptKeyMaterial_getD_lt h1 hlt
      have hmem : b1.getD b2.length 0 ∈ b1 := by
        rw [List.getD_eq_getElem b1 0 hlt]
        exact List.getElem_mem hlt
      rw [← hgd b2.length, e2] at e1
      exact hz1 _ hmem e1
  apply List.ext_getElem hlen
  intro i hi1 hi2
  have g1 := bcryptKeyMaterial_getD_lt h1 hi1
  have g2 := bcryptKeyMaterial_getD_lt h2 hi2
  have hi := hgd i
  rw [g1, g2, List.getD_eq_getElem b1 0 hi1, List.getD_eq_getElem b2 0 hi2] at hi
  exact hi

theorem utf8Bytes_length_ge (l : List Char) : l.length ≤ (utf8Bytes l).length := by
  induction l with
  | nil => simp [utf8Bytes]
  | cons c cs ih =>
    have h1 := charBytes_length_pos c
    show cs.length + 1 ≤ (charBytes c ++ utf8Bytes cs).length
    rw [List.length_append]
    omega

theorem utf8Bytes_ascii_length {l : List Char} (h : ∀ c ∈ l, c.toNat < 0x80) :
    (utf8Bytes l).length = l.length := by
  induction l with
  | nil => rfl
  | cons c cs ih =>
    have hc : charBytes c = [c.toNat] := charBytes_ascii (h c (by simp))
    have ih2 := ih (fun x hx => h x (by simp [hx]))
    show (charBytes c ++ utf8Bytes cs).length = (c :: cs).length
    rw [hc, List.length_append, ih2]
    simp [Nat.add_comm]

theorem ParseGender_always_valid (s : String) : (ParseGender s).IsValid = true := by
  unfold ParseGender
  split_ifs <;> rfl

theorem validateGender_total (s : String) : validateGender s = .ok () := by
  unfold validateGender
  by_cases h : s = ""
  · rw [if_pos h]
  · rw [if_neg h]
    simp [ParseGender_always_valid s]

/-- Claim C1 (counterexample): `"banana"` is non-empty and does not normalize
case-insensitively to `male`, `female` or `unknown`, yet `validateGender`
accepts it — `ParseGender` collapses it to `GenderUnknown`, which passes
`IsValid`, so the `InvalidEnum` branch of `validateGender` is unreachable. -/
theorem validateGender_accepts_banana :
    ("banana" : String) ≠ "" ∧ stringsToLower "banana" ≠ "male" ∧
      stringsToLower "banana" ≠ "female" ∧ stringsToLower "banana" ≠ "unknown" ∧
      validateGender "banana" = .ok () :=
  ⟨by decide, by decide, by decide, by decide, rfl⟩

/-- Claim C1 (amended): `validateGender` succeeds on every string.  The
empty string succeeds immediately, and every non-empty string is first
normalized by `ParseGender`, which maps every unrecognized value to
`unknown`; the normalized value always passes `IsValid`, so the
`InvalidEnum` failure of the claim can never be produced. -/
theorem validateGender_always_succeeds (s : String) : validateGender s = .ok () :=
  validateGender_total s

/-- Claim C2: `ParseGender` always returns one of the three enum values
`male`, `female`, `unknown`, matching case-insensitively; every
unrecognized or empty input maps to `unknown` rather than failing, and the
result always satisfies `IsValid`. -/
theorem ParseGender_closed_enum (s : String) :
    (ParseGender s = GenderMale ∨ ParseGender s = GenderFemale ∨
        ParseGender s = GenderUnknown) ∧
      (ParseGender s).IsValid = true ∧
      (stringsToLower s = "male" → ParseGender s = GenderMale) ∧
      (stringsToLower s = "female" → ParseGender s = GenderFemale) ∧
      (stringsToLower s ≠ "male" → stringsToLower s ≠ "female" →
        ParseGender s = GenderUnknown) := by
  refine ⟨?_, ParseGender_always_valid s, ?_, ?_, ?_⟩ <;>
    unfold ParseGender <;> split_ifs with h1 h2 <;> simp_all

/-- Claim C2 (witness): evaluating the case-insensitive match and the
default at concrete inputs. -/
theorem ParseGender_closed_enum_witness :
    ParseGender "MALE" = GenderMale ∧ ParseGender "banana" = GenderUnknown :=
  ⟨(ParseGender_closed_enum "MALE").2.2.1 (by decide),
   (ParseGender_closed_enum "banana").2.2.2.2 (by decide) (by decide)⟩

/-- Claim C6: `validateEmail s` fails with the too-long error exactly when
the byte length of `s` exceeds 100; otherwise it fails with the
invalid-format error exactly when `s` does not match the pattern
`local-part@domain.tld` decided by `emailRegexMatch`; and it succeeds
exactly when the length bound and the pattern both hold. -/
theorem validateEmail_trichotomy (s : String) :
    ((validateEmail s = .error "email is too long") ↔ goLen s > 100) ∧
      ((validateEmail s = .error "invalid email format") ↔
        (goLen s ≤ 100 ∧ emailRegexMatch s = false)) ∧
      ((validateEmail s = .ok ()) ↔ (goLen s ≤ 100 ∧ emailRegexMatch s = true)) := by
  have hne : ("email is too long" : String) ≠ "invalid email format" := by decide
  unfold validateEmail
  by_cases h1 : goLen s > EmailMaxLength
  · rw [if_pos h1]
    have h1' : goLen s > 100 := h1
    refine ⟨⟨fun _ => h1', fun _ => rfl⟩, ⟨?_, ?_⟩, ⟨?_, ?_⟩⟩
    · intro he
      exact absurd (Except.error.inj he) hne
    · intro hr
      exact absurd hr.1 (by omega)
    · intro he
      exact Except.noConfusion he
    · intro hr
      exact absurd hr.1 (by omega)
  · have h1' : ¬goLen s > 100 := h1
    rw [if_neg h1]
    by_cases h2 : emailRegexMatch s
    · have hok : (if (!emailRegexMatch s) = true then
          (Except.error "invalid email format" : Except String Unit)
          else Except.ok ()) = Except.ok () := by simp [h2]
      rw [hok]
      refine ⟨⟨fun he => Except.noConfusion he, fun hgt => absurd hgt h1'⟩,
        ⟨fun he => Except.noConfusion he, fun hr => ?_⟩,
        ⟨fun _ => ⟨by omega, h2⟩, fun _ => rfl⟩⟩
      rw [h2] at hr
      exact Bool.noConfusion hr.2
    · have h2' : emailRegexMatch s = false := by simpa using h2
      have herr : (if (!emailRegexMatch s) = true then
          (Except.error "invalid email format" : Except String Unit)
          else Except.ok ()) = Except.error "invalid email format" := by simp [h2']
      rw [herr]
      refine ⟨⟨fun he => absurd (Except.error.inj he).symm hne, fun hgt => absurd hgt h1'⟩,
        ⟨fun _ => ⟨by omega, h2'⟩, fun _ => rfl⟩,
        ⟨fun he => Except.noConfusion he, fun hr => ?_⟩⟩
      rw [h2'] at hr
      exact Bool.noConfusion hr.2

/-- Claim C6 (witness): evaluating the trichotomy at a well-formed address. -/
theorem validateEmail_trichotomy_witness :
    validateEmail "alice@example.com" = .ok () :=
  (validateEmail_trichotomy "alice@example.com").2.2.mpr ⟨by decide, by decide⟩

/-- Claim C9: two users that agree on every field except the password hash
have the same client-facing representation: `ToResponse` coincides, as do
the JSON serializations of the user (whose `PasswordHash` field carries the
`json:"-"` tag) and of the response; in particular the hash never appears in
any client-facing serialization. -/
theorem ToResponse_independent_of_hash (u v : User) (hid : u.ID = v.ID)
    (hun : u.Username = v.Username) (hem : u.Email = v.Email)
    (hg : u.Gender = v.Gender) (hca : u.CreatedAt = v.CreatedAt)
    (hua : u.UpdatedAt = v.UpdatedAt) :
    u.ToResponse = v.ToResponse ∧ marshalUser u = marshalUser v ∧
      marshalUserResponse u.ToResponse = marshalUserResponse v.ToResponse := by
  cases u
  cases v
  simp_all [User.ToResponse, marshalUser, marshalUserResponse]

/-- Claim C9 (witness): two concrete users differing only in their stored
hash serialize identically. -/
theorem ToResponse_independent_of_hash_witness :
    (⟨1, "alice", "a@b.co", "unknown", ⟨10, [1], [2]⟩, 0, 0⟩ : User).ToResponse =
      (⟨1, "alice", "a@b.co", "unknown", ⟨10, [3], [4]⟩, 0, 0⟩ : User).ToResponse :=
  (ToResponse_independent_of_hash _ _ rfl rfl rfl rfl rfl rfl).1

set_option maxRecDepth 8192 in
/-- Claim C3 (counterexample): the bcrypt key schedule consumes the
NUL-terminated password cyclically, 72 bytes in total, so distinct
passwords can verify against the same digest.  Two concrete collisions:
`"a\x00a"` has the same key material as `"a"` (cycling `[97, 0]`), and the
73-byte run of `a` has the same key material as the 72-byte one (only the
first 72 key bytes are consumed).  In both cases the claim requires
verification to fail, yet it succeeds. -/
theorem bcrypt_key_schedule_collisions :
    ("a\x00a" : String) ≠ "a" ∧
      HashPassword [] "a" = .ok ⟨10, [], bcryptKeyMaterial [97]⟩ ∧
      CheckPassword "a\x00a" ⟨10, [], bcryptKeyMaterial [97]⟩ = .ok () ∧
      String.mk (List.replicate 73 'a') ≠ String.mk (List.replicate 72 'a') ∧
      HashPassword [] (String.mk (List.replicate 72 'a')) =
        .ok ⟨10, [], bcryptKeyMaterial (List.replicate 72 97)⟩ ∧
      CheckPassword (String.mk (List.replicate 73 'a'))
        ⟨10, [], bcryptKeyMaterial (List.replicate 72 97)⟩ = .ok () :=
  ⟨by decide, by rfl, by rfl, by decide, by rfl, by rfl⟩

/-- Claim C3 (amended): for every password of at most 72 bytes, hashing
succeeds and verification of the same password against the produced digest
succeeds; verification of a *different* password against that digest fails
with the generic error provided both passwords have at most 72 bytes and
contain no NUL byte.  Outside that range the library deviates from the
claim: `HashPassword` rejects passwords longer than 72 bytes, and the
NUL-terminated cyclic key schedule of `CheckPassword` identifies passwords
with equal 72-byte key material (see the counterexample). -/
theorem HashPassword_CheckPassword_roundtrip (salt : List Nat) (p p2 : String)
    (d : BcryptDigest) :
    (goLen p ≤ 72 →
        HashPassword salt p =
          .ok ⟨bcryptDefaultCost, salt, bcryptKeyMaterial (strBytes p)⟩ ∧
          CheckPassword p ⟨bcryptDefaultCost, salt, bcryptKeyMaterial (strBytes p)⟩ =
            .ok ()) ∧
      (goLen p > 72 →
        HashPassword salt p =
          .error "failed to hash password: bcrypt: password length exceeds 72 bytes") ∧
      (p ≠ p2 → goLen p ≤ 72 → goLen p2 ≤ 72 →
        (∀ x ∈ strBytes p, x ≠ 0) → (∀ x ∈ strBytes p2, x ≠ 0) →
        HashPassword salt p2 = .ok d →
        CheckPassword p d = .error "invalid password") := by
  refine ⟨?_, ?_, ?_⟩
  · intro hle
    have hl : (strBytes p).length ≤ 72 := hle
    constructor
    · unfold HashPassword
      rw [if_neg (by omega)]
    · unfold CheckPassword
      rw [if_pos rfl]
  · intro hgt
    have hl : (strBytes p).length > 72 := hgt
    unfold HashPassword
    rw [if_pos hl]
  · intro hne hle hle2 hz hz2 hok
    have hl : (strBytes p).length ≤ 72 := hle
    have hl2 : (strBytes p2).length ≤ 72 := hle2
    unfold HashPassword at hok
    rw [if_neg (by omega)] at hok
    have hd : d = ⟨bcryptDefaultCost, salt, bcryptKeyMaterial (strBytes p2)⟩ :=
      (Except.ok.inj hok).symm
    subst hd
    unfold CheckPassword
    rw [if_neg ?hcond]
    case hcond =>
      intro heq
      exact hne (strBytes_inj (bcryptKeyMaterial_inj hl hl2 hz hz2 heq))

/-- Claim C3 (witness): the round trip and the mismatch failure at concrete
NUL-free passwords of at most 72 bytes. -/
theorem HashPassword_CheckPassword_roundtrip_witness :
    (HashPassword [] "a" = .ok ⟨10, [], bcryptKeyMaterial [97]⟩ ∧
        CheckPassword "a" ⟨10, [], bcryptKeyMaterial [97]⟩ = .ok ()) ∧
      CheckPassword "a" ⟨10, [], bcryptKeyMaterial [98]⟩ = .error "invalid password" := by
  refine ⟨(HashPassword_CheckPassword_roundtrip [] "a" "b" ⟨10, [], bcryptKeyMaterial [98]⟩).1
    (by decide), ?_⟩
  exact (HashPassword_CheckPassword_roundtrip [] "a" "b" ⟨10, [], bcryptKeyMaterial [98]⟩).2.2
    (by decide) (by decide) (by decide) (by decide) (by decide) (by rfl)

/-- Claim C4: the login failure for an unknown email and the login failure
for a known email with a non-matching password are the *same* response —
`invalidCredentialResp`, status 401 with the generic body
`{"error": "Invalid email or password"}` — so the response never reveals
whether the email is registered. -/
theorem ActionLogin_uniform_unauthorized (d : LoginDeps) (req : UserLoginRequest) :
    (∀ e, d.getByEmail req.Email = .error e →
        ActionLogin d req = invalidCredentialResp) ∧
      (∀ u e, d.getByEmail req.Email = .ok u →
        CheckPassword req.Password u.PasswordHash = .error e →
        ActionLogin d req = invalidCredentialResp) := by
  constructor
  · intro e he
    unfold ActionLogin
    rw [he]
  · intro u e hu hc
    simp only [ActionLogin, hu, hc]

/-- Claim C4 (witness): a repository without the email and a repository
whose stored digest does not match the submitted password produce the same
concrete 401 response. -/
theorem ActionLogin_uniform_unauthorized_witness :
    ActionLogin ⟨fun _ => .error "user with email not found", fun _ _ _ => .ok "t", 24⟩
        ⟨"a@b.co", "pw"⟩ = invalidCredentialResp ∧
      ActionLogin ⟨fun _ => .ok ⟨1, "u", "a@b.co", "unknown", ⟨10, [], [97]⟩, 0, 0⟩,
          fun _ _ _ => .ok "t", 24⟩ ⟨"a@b.co", "pw"⟩ = invalidCredentialResp := by
  constructor
  · exact (ActionLogin_uniform_unauthorized _ _).1 "user with email not found" rfl
  · exact (ActionLogin_uniform_unauthorized _ _).2
      ⟨1, "u", "a@b.co", "unknown", ⟨10, [], [97]⟩, 0, 0⟩ "invalid password" rfl (by rfl)

/-- Claim C5: the authentication gate produces exactly one of three
unauthorized aborts — missing header, malformed header, invalid-or-expired
token — each short-circuiting the request (the outcome is `.abort`, which
carries no identity for downstream processing), and on success proceeds with
the claims' user id, username and email attached to the context.  The last
conjunct records that the three failure bodies are pairwise distinct. -/
theorem AuthMiddleware_gate (validateToken : String → Except String JwtClaims)
    (h : String) :
    (h = "" → AuthMiddleware validateToken h =
        .abort ⟨401, .obj [("error", .str "Authorization header is required")]⟩) ∧
      (h ≠ "" →
        ((splitN2Space h).length ≠ 2 ∨ (splitN2Space h).headD "" ≠ "Bearer") →
        AuthMiddleware validateToken h =
          .abort ⟨401, .obj [("error", .str "Invalid authorization header format")]⟩) ∧
      (∀ tok e, h ≠ "" → splitN2Space h = ["Bearer", tok] →
        validateToken tok = .error e →
        AuthMiddleware validateToken h =
          .abort ⟨401, .obj [("error", .str "Invalid or expired token")]⟩) ∧
      (∀ tok c, h ≠ "" → splitN2Space h = ["Bearer", tok] →
        validateToken tok = .ok c →
        AuthMiddleware validateToken h = .proceed c.UserID c.Username c.Email) ∧
      (("Authorization header is required" : String) ≠
          "Invalid authorization header format" ∧
        ("Authorization header is required" : String) ≠ "Invalid or expired token" ∧
        ("Invalid authorization header format" : String) ≠ "Invalid or expired token") := by
  refine ⟨?_, ?_, ?_, ?_, by decide, by decide, by decide⟩
  · intro he
    simp [AuthMiddleware, he]
  · intro hne hcond
    rcases hsp : splitN2Space h with _ | ⟨a, rest⟩
    · simp [AuthMiddleware, hne, hsp]
    · rcases rest with _ | ⟨b, rest2⟩
      · simp [AuthMiddleware, hne, hsp]
      · rcases rest2 with _ | ⟨c, rest3⟩
        · rw [hsp] at hcond
          have ha : a ≠ "Bearer" := by
            rcases hcond with hc | hc
            · cases hc rfl
            · simpa using hc
          simp [AuthMiddleware, hne, hsp, ha]
        · simp [AuthMiddleware, hne, hsp]
  · intro tok e hne hsplit hval
    simp [AuthMiddleware, hne, hsplit, hval]
  · intro tok c hne hsplit hval
    simp [AuthMiddleware, hne, hsplit, hval]

/-- Claim C5 (witness): the four outcomes at concrete headers and a
concrete verifier. -/
theorem AuthMiddleware_gate_witness :
    AuthMiddleware (fun t => if t = "good" then .ok ⟨7, "u", "e@x.co"⟩ else .error "bad")
        "" = .abort ⟨401, .obj [("error", .str "Authorization header is required")]⟩ ∧
      AuthMiddleware (fun t => if t = "good" then .ok ⟨7, "u", "e@x.co"⟩ else .error "bad")
        "Token abc" =
        .abort ⟨401, .obj [("error", .str "Invalid authorization header format")]⟩ ∧
      AuthMiddleware (fun t => if t = "good" then .ok ⟨7, "u", "e@x.co"⟩ else .error "bad")
        "Bearer wrong" =
        .abort ⟨401, .obj [("error", .str "Invalid or expired token")]⟩ ∧
      AuthMiddleware (fun t => if t = "good" then .ok ⟨7, "u", "e@x.co"⟩ else .error "bad")
        "Bearer good" = .proceed 7 "u" "e@x.co" := by
  refine ⟨(AuthMiddleware_gate _ _).1 rfl,
    (AuthMiddleware_gate _ _).2.1 (by decide) (Or.inr (by decide)),
    (AuthMiddleware_gate _ _).2.2.1 "wrong" "bad" (by decide) (by rfl) (by rfl),
    (AuthMiddleware_gate _ _).2.2.2.1 "good" ⟨7, "u", "e@x.co"⟩ (by decide) (by rfl) (by rfl)⟩

/-- Claim C7: the create validator runs username → email → gender →
password and returns the first failure; the update validator checks the
same order but only for present (non-nil) fields, and an all-absent request
validates successfully. -/
theorem Validate_first_failure_order (c : UserCreateRequest) (u : UserUpdateRequest) :
    (∀ e, validateUsername c.Username = .error e →
        c.Validate = .error ("username validation failed: " ++ e)) ∧
      (validateUsername c.Username = .ok () → ∀ e, validateEmail c.Email = .error e →
        c.Validate = .error ("email validation failed: " ++ e)) ∧
      (validateUsername c.Username = .ok () → validateEmail c.Email = .ok () →
        ∀ e, validateGender c.Gender = .error e →
        c.Validate = .error ("gender validation failed: " ++ e)) ∧
      (validateUsername c.Username = .ok () → validateEmail c.Email = .ok () →
        validateGender c.Gender = .ok () → ∀ e, validatePassword c.Password = .error e →
        c.Validate = .error ("password validation failed: " ++ e)) ∧
      (validateUsername c.Username = .ok () → validateEmail c.Email = .ok () →
        validateGender c.Gender = .ok () → validatePassword c.Password = .ok () →
        c.Validate = .ok ()) ∧
      (∀ s e, u.Username = some s → validateUsername s = .error e →
        u.Validate = .error ("username validation failed: " ++ e)) ∧
      ((∀ s, u.Username = some s → validateUsername s = .ok ()) →
        ∀ s e, u.Email = some s → validateEmail s = .error e →
        u.Validate = .error ("email validation failed: " ++ e)) ∧
      ((∀ s, u.Username = some s → validateUsername s = .ok ()) →
        (∀ s, u.Email = some s → validateEmail s = .ok ()) →
        ∀ s e, u.Gender = some s → validateGender s = .error e →
        u.Validate = .error ("gender validation failed: " ++ e)) ∧
      ((∀ s, u.Username = some s → validateUsername s = .ok ()) →
        (∀ s, u.Email = some s → validateEmail s = .ok ()) →
        (∀ s, u.Gender = some s → validateGender s = .ok ()) →
        ∀ s e, u.Password = some s → validatePassword s = .error e →
        u.Validate = .error ("password validation failed: " ++ e)) ∧
      (u.Username = none → u.Email = none → u.Gender = none → u.Password = none →
        u.Validate = .ok ()) := by
  refine ⟨?_, ?_, ?_, ?_, ?_, ?_, ?_, ?_, ?_, ?_⟩
  · intro e he
    simp only [UserCreateRequest.Validate, he]
  · intro h1 e he
    simp only [UserCreateRequest.Validate, h1, he]
  · intro h1 h2 e he
    simp only [UserCreateRequest.Validate, h1, h2, he]
  · intro h1 h2 h3 e he
    simp only [UserCreateRequest.Validate, h1, h2, h3, he]
  · intro h1 h2 h3 h4
    simp only [UserCreateRequest.Validate, h1, h2, h3, h4]
  · intro s e hs he
    simp only [UserUpdateRequest.Validate, hs, he]
  · intro h1 s e hs he
    rcases hU : u.Username with _ | s1
    · simp only [UserUpdateRequest.Validate, hU, hs, he]
    · simp only [UserUpdateRequest.Validate, hU, h1 s1 hU, hs, he]
  · intro h1 h2 s e hs he
    rcases hU : u.Username with _ | s1 <;> rcases hE : u.Email with _ | s2
    · simp only [UserUpdateRequest.Validate, hU, hE, hs, he]
    · simp only [UserUpdateRequest.Validate, hU, hE, h2 s2 hE, hs, he]
    · simp only [UserUpdateRequest.Validate, hU, h1 s1 hU, hE, hs, he]
    · simp only [UserUpdateRequest.Validate, hU, h1 s1 hU, hE, h2 s2 hE, hs, he]
  · intro h1 h2 h3 s e hs he
    rcases hU : u.Username with _ | s1 <;> rcases hE : u.Email with _ | s2 <;>
      rcases hG : u.Gender with _ | s3
    · simp only [UserUpdateRequest.Validate, hU, hE, hG, hs, he]
    · simp only [UserUpdateRequest.Validate, hU, hE, hG, h3 s3 hG, hs, he]
    · simp only [UserUpdateRequest.Validate, hU, hE, h2 s2 hE, hG, hs, he]
    · simp only [UserUpdateRequest.Validate, hU, hE, h2 s2 hE, hG, h3 s3 hG, hs, he]
    · simp only [UserUpdateRequest.Validate, hU, h1 s1 hU, hE, hG, hs, he]
    · simp only [UserUpdateRequest.Validate, hU, h1 s1 hU, hE, hG, h3 s3 hG, hs, he]
    · simp only [UserUpdateRequest.Validate, hU, h1 s1 hU, hE, h2 s2 hE, hG, hs, he]
    · simp only [UserUpdateRequest.Validate, hU, h1 s1 hU, hE, h2 s2 hE, hG, h3 s3 hG,
        hs, he]
  · intro h1 h2 h3 h4
    simp only [UserUpdateRequest.Validate, h1, h2, h3, h4]

/-- Claim C7 (witness): the first failure surfaces for a too-short username,
and the all-absent update request validates. -/
theorem Validate_first_failure_order_witness :
    (UserCreateRequest.mk "ab" "a@b.co" "" "Passw0rd").Validate =
        .error "username validation failed: username is too short" ∧
      (UserUpdateRequest.mk none none none none).Validate = .ok () := by
  constructor
  · exact (Validate_first_failure_order ⟨"ab", "a@b.co", "", "Passw0rd"⟩
      ⟨none, none, none, none⟩).1 "username is too short" (by rfl)
  · exact (Validate_first_failure_order ⟨"ab", "a@b.co", "", "Passw0rd"⟩
      ⟨none, none, none, none⟩).2.2.2.2.2.2.2.2.2 rfl rfl rfl rfl

theorem usernameChar_ascii {ch : Char} (h : usernameChar ch = true) :
    ch.toNat < 0x80 := by
  simp only [usernameChar, isAlphaAscii, isUpperAscii, isLowerAscii, isDigitAscii,
    Bool.or_eq_true, Bool.and_eq_true, decide_eq_true_eq] at h
  rcases h with (((⟨h1, h2⟩ | ⟨h1, h2⟩) | ⟨h1, h2⟩) | h) | h
  · have hub : ch.toNat ≤ 90 := h2
    omega
  · have hub : ch.toNat ≤ 122 := h2
    omega
  · have hub : ch.toNat ≤ 57 := h2
    omega
  · subst h
    decide
  · subst h
    decide

/-- Claim C8: every create request whose username has 3 to 50 characters
drawn from `[A-Za-z0-9_-]`, whose email matches the pattern and has at most
100 bytes, whose password has at least 8 characters with an upper-case
letter, a lower-case letter and a digit, and whose gender is empty or a
recognized value, passes the composed validation. -/
theorem UserCreateRequest_accepts_valid (r : UserCreateRequest)
    (hu1 : 3 ≤ r.Username.data.length) (hu2 : r.Username.data.length ≤ 50)
    (hu3 : r.Username.data.all usernameChar = true)
    (he1 : emailRegexMatch r.Email = true) (he2 : goLen r.Email ≤ 100)
    (hp1 : 8 ≤ r.Password.data.length)
    (hp2 : r.Password.data.any isUpperAscii = true)
    (hp3 : r.Password.data.any isLowerAscii = true)
    (hp4 : r.Password.data.any isDigitAscii = true)
    (hg : r.Gender = "" ∨ (ParseGender r.Gender).IsValid = true) :
    r.Validate = .ok () := by
  have hascii : ∀ ch ∈ r.Username.data, ch.toNat < 0x80 := fun ch hch =>
    usernameChar_ascii (List.all_eq_true.mp hu3 ch hch)
  have hulen : goLen r.Username = r.Username.data.length := utf8Bytes_ascii_length hascii
  have hvu : validateUsername r.Username = .ok () := by
    have h1 : ¬goLen r.Username < UsernameMinLength := by
      rw [hulen]
      simp only [UsernameMinLength]
      omega
    have h2 : ¬goLen r.Username > UsernameMaxLength := by
      rw [hulen]
      simp only [UsernameMaxLength]
      omega
    have hdne : r.Username.data.isEmpty = false := by
      rcases hl : r.Username.data with _ | _
      · rw [hl] at hu1
        simp at hu1
      · rfl
    have h3 : usernameRegexMatch r.Username = true := by
      unfold usernameRegexMatch
      rw [hdne, hu3]
      rfl
    unfold validateUsername
    rw [if_neg h1, if_neg h2]
    simp [h3]
  have hve : validateEmail r.Email = .ok () := by
    have h1 : ¬goLen r.Email > EmailMaxLength := by
      simp only [EmailMaxLength]
      omega
    unfold validateEmail
    rw [if_neg h1]
    simp [he1]
  have hvp : validatePassword r.Password = .ok () := by
    have hge : r.Password.data.length ≤ goLen r.Password :=
      utf8Bytes_length_ge r.Password.data
    have h1 : ¬goLen r.Password < PasswordMinLength := by
      simp only [PasswordMinLength]
      omega
    unfold validatePassword
    rw [if_neg h1]
    simp [hp2, hp3, hp4]
  simp only [UserCreateRequest.Validate, hvu, hve, validateGender_total, hvp]

/-- Claim C8 (witness): a concrete well-formed create request passes. -/
theorem UserCreateRequest_accepts_valid_witness :
    (UserCreateRequest.mk "alice" "alice@example.com" "" "Passw0rd").Validate = .ok () :=
  UserCreateRequest_accepts_valid ⟨"alice", "alice@example.com", "", "Passw0rd"⟩
    (by decide) (by decide) (by decide) (by rfl) (by decide) (by decide) (by decide)
    (by decide) (by decide) (Or.inl rfl)

theorem updateUsernameStep_frame (d : UpdateDeps) (req : UserUpdateRequest)
    (user user1 : User) (h : updateUsernameStep d req user = .save user1) :
    (req.Username = none → user1.Username = user.Username) ∧
      user1.Email = user.Email ∧ user1.Gender = user.Gender ∧
      user1.PasswordHash = user.PasswordHash ∧ user1.ID = user.ID ∧
      user1.CreatedAt = user.CreatedAt ∧ user1.UpdatedAt = user.UpdatedAt := by
  unfold updateUsernameStep at h
  rcases hU : req.Username with _ | un <;> rw [hU] at h <;> dsimp only [] at h
  · injection h with h
    subst h
    simp
  · split_ifs at h <;>
      first
      | exact (UpdateOutcome.noConfusion h)
      | (injection h with h; subst h; simp [hU])

theorem updateEmailStep_frame (d : UpdateDeps) (req : UserUpdateRequest)
    (user user1 : User) (h : updateEmailStep d req user = .save user1) :
    (req.Email = none → user1.Email = user.Email) ∧
      user1.Username = user.Username ∧ user1.Gender = user.Gender ∧
      user1.PasswordHash = user.PasswordHash ∧ user1.ID = user.ID ∧
      user1.CreatedAt = user.CreatedAt ∧ user1.UpdatedAt = user.UpdatedAt := by
  unfold updateEmailStep at h
  rcases hE : req.Email with _ | em <;> rw [hE] at h <;> dsimp only [] at h
  · injection h with h
    subst h
    simp
  · split_ifs at h <;>
      first
      | exact (UpdateOutcome.noConfusion h)
      | (injection h with h; subst h; simp [hE])

theorem updateGenderStep_frame (req : UserUpdateRequest) (user : User) :
    (req.Gender = none → (updateGenderStep req user).Gender = user.Gender) ∧
      (updateGenderStep req user).Username = user.Username ∧
      (updateGenderStep req user).Email = user.Email ∧
      (updateGenderStep req user).PasswordHash = user.PasswordHash ∧
      (updateGenderStep req user).ID = user.ID ∧
      (updateGenderStep req user).CreatedAt = user.CreatedAt ∧
      (updateGenderStep req user).UpdatedAt = user.UpdatedAt := by
  rcases hG : req.Gender with _ | g <;> simp [updateGenderStep, hG]

theorem updatePasswordStep_frame (d : UpdateDeps) (req : UserUpdateRequest)
    (user user1 : User) (h : updatePasswordStep d req user = .save user1) :
    (req.Password = none → user1.PasswordHash = user.PasswordHash) ∧
      user1.Username = user.Username ∧ user1.Email = user.Email ∧
      user1.Gender = user.Gender ∧ user1.ID = user.ID ∧
      user1.CreatedAt = user.CreatedAt ∧ user1.UpdatedAt = user.UpdatedAt := by
  unfold updatePasswordStep at h
  rcases hP : req.Password with _ | pw <;> rw [hP] at h <;> dsimp only [] at h
  · injection h with h
    subst h
    simp
  · rcases hH : HashPassword d.salt pw with e | dg <;> rw [hH] at h <;>
      dsimp only [] at h <;>
      first
      | exact (UpdateOutcome.noConfusion h)
      | (injection h with h; subst h; simp [hP])

/-- Claim C10: whenever the profile-update handler reaches the save with an
updated user, every field whose request pointer is nil — username, email,
gender, password hash — is carried over unchanged from the stored user, as
are `ID` and `CreatedAt`; `UpdatedAt` is stamped with the current time. -/
theorem ActionUpdateProfile_frame (d : UpdateDeps) (uid : Int) (req : UserUpdateRequest)
    (u u' : User) (hget : d.getByID uid = .ok u)
    (hsave : ActionUpdateProfile d (some uid) req = .save u') :
    (req.Username = none → u'.Username = u.Username) ∧
      (req.Email = none → u'.Email = u.Email) ∧
      (req.Gender = none → u'.Gender = u.Gender) ∧
      (req.Password = none → u'.PasswordHash = u.PasswordHash) ∧
      u'.ID = u.ID ∧ u'.CreatedAt = u.CreatedAt ∧ u'.UpdatedAt = d.now := by
  simp only [ActionUpdateProfile] at hsave
  rcases hv : req.Validate with e | v
  · simp only [hv] at hsave
    cases hsave
  · simp only [hv, hget] at hsave
    rcases h1 : updateUsernameStep d req u with r1 | u1
    · simp only [h1, UpdateOutcome.andThen] at hsave
      cases hsave
    · simp only [h1, UpdateOutcome.andThen] at hsave
      rcases h2 : updateEmailStep d req u1 with r2 | u2
      · simp only [h2, UpdateOutcome.andThen] at hsave
        cases hsave
      · simp only [h2, UpdateOutcome.andThen] at hsave
        rcases h3 : updatePasswordStep d req (updateGenderStep req u2) with r3 | u3
        · simp only [h3, UpdateOutcome.andThen] at hsave
          cases hsave
        · simp only [h3, UpdateOutcome.andThen] at hsave
          injection hsave with hX
          subst hX
          obtain ⟨a1, a2, a3, a4, a5, a6, a7⟩ := updateUsernameStep_frame d req u u1 h1
          obtain ⟨b1, b2, b3, b4, b5, b6, b7⟩ := updateEmailStep_frame d req u1 u2 h2
          obtain ⟨g1, g2, g3, g4, g5, g6, g7⟩ := updateGenderStep_frame req u2
          obtain ⟨c1, c2, c3, c4, c5, c6, c7⟩ :=
            updatePasswordStep_frame d req (updateGenderStep req u2) u3 h3
          refine ⟨?_, ?_, ?_, ?_, ?_, ?_, rfl⟩
          · intro hn
            show u3.Username = u.Username
            rw [c2, g2, b2, a1 hn]
          · intro hn
            show u3.Email = u.Email
            rw [c3, g3, b1 hn, a2]
          · intro hn
            show u3.Gender = u.Gender
            rw [c4, g1 hn, b3, a3]
          · intro hn
            show u3.PasswordHash = u.PasswordHash
            rw [c1 hn, g4, b4, a4]
          · show u3.ID = u.ID
            rw [c5, g5, b5, a5]
          · show u3.CreatedAt = u.CreatedAt
            rw [c6, g6, b6, a6]

/-- Claim C10 (witness): a run with an all-absent request saves the stored
user unchanged except for the freshly stamped `UpdatedAt`. -/
theorem ActionUpdateProfile_frame_witness :
    ((⟨1, "u", "e@x.co", "unknown", ⟨10, [], [97]⟩, 3, 3⟩ : User).Username = "u") ∧
      ActionUpdateProfile
          ⟨fun _ => .ok ⟨1, "u", "e@x.co", "unknown", ⟨10, [], [97]⟩, 3, 3⟩,
            fun _ => false, fun _ => false, [], 9⟩
          (some 1) ⟨none, none, none, none⟩ =
        .save ⟨1, "u", "e@x.co", "unknown", ⟨10, [], [97]⟩, 3, 9⟩ ∧
      (⟨1, "u", "e@x.co", "unknown", ⟨10, [], [97]⟩, 3, 9⟩ : User).Username =
        (⟨1, "u", "e@x.co", "unknown", ⟨10, [], [97]⟩, 3, 3⟩ : User).Username := by
  refine ⟨rfl, by rfl, ?_⟩
  exact (ActionUpdateProfile_frame
    ⟨fun _ => .ok ⟨1, "u", "e@x.co", "unknown", ⟨10, [], [97]⟩, 3, 3⟩,
      fun _ => false, fun _ => false, [], 9⟩
    1 ⟨none, none, none, none⟩
    ⟨1, "u", "e@x.co", "unknown", ⟨10, [], [97]⟩, 3, 3⟩
    ⟨1, "u", "e@x.co", "unknown", ⟨10, [], [97]⟩, 3, 9⟩ rfl (by rfl)).1 rfl

end Wishlist
